import Mathlib

/-!
# Blueprint controller and TextInput component

A shallow embedding of `api-server/controller/blueprints.js` (the Koa routes
for `/blueprints/id/:id`) and of `client/components/text-input.js` (the React
`TextInput` component), with the properties of both that are verified here.

The database is an explicit `World` value that the handlers pass along; every
query and write a handler issues is appended to `World.log`, so that "no query
was made" and "no save was performed" are statements about the log.
-/

set_option autoImplicit false

namespace Clovis

/-! ## Data model -/

/-- JSON values: request bodies, exported documents and response bodies. -/
inductive JVal where
  | null : JVal
  | bool (b : Bool) : JVal
  | num (q : ℚ) : JVal
  | str (s : String) : JVal
  | arr (xs : List JVal) : JVal
  | obj (kvs : List (String × JVal)) : JVal

/-- A JSON object, as a list of key/value entries. -/
abbrev JObject := List (String × JVal)

/-- Identifiers of documents (Mongo ids, rendered as strings by the tests). -/
abbrev Id := String

/-- The `size` of a page: `{ unit, height, width }`. -/
structure PageSize where
  unit : String
  height : ℚ
  width : ℚ
  deriving DecidableEq

/-- A page descriptor of a blueprint: `{ rot, size }`. -/
structure Page where
  rot : Int
  size : PageSize
  deriving DecidableEq

/-- A blueprint document, with the fields the controller and its tests use:
`_id`, `name`, `keyPrefix`, `project`, `progress`, `pages`, `deleted`. -/
structure Blueprint where
  id : Id
  name : String
  keyPrefix : String
  project : Id
  progress : ℚ
  pages : List Page
  deleted : Bool
  deriving DecidableEq

/-- The `locationOnBlueprint` sub-document of a task. -/
structure TaskLocation where
  pageNumber : Nat
  blueprint : Id
  x : ℚ
  y : ℚ
  deriving DecidableEq

/-- Modelled from the spec: the Task model is not part of the sources at hand.
The fields are among those the controller's tests create a task with, the
location being the TaskLocation of the spec. A task without a location has
`locationOnBlueprint = none`. -/
structure Task where
  id : Id
  project : Id
  description : String
  locationOnBlueprint : Option TaskLocation
  author : Id
  number : Nat
  important : Bool
  closed : Bool
  deriving DecidableEq

/-- A project document; membership is decided by `Models.getMemberType`. -/
structure Project where
  id : Id
  deriving DecidableEq

/-- The authenticated actor, `ctx.me`. -/
structure User where
  id : Id
  deriving DecidableEq

/-- The model methods the controller calls whose code is not in the sources at
hand: `project.getMemberType(user)` (the result is a member type, or a falsy
value), `blueprint.export()` and `task.export()`. -/
structure Models where
  getMemberType : Project → User → Option String
  exportBlueprint : Blueprint → JVal
  exportTask : Task → JVal

/-- JavaScript truthiness of the result of `getMemberType`: `null`/`undefined`
and the empty string are falsy. -/
def truthy : Option String → Bool
  | none => false
  | some s => s != ""

/-- A database operation issued by a handler. -/
inductive DbOp where
  | projectFindById (id : Id) : DbOp
  | taskFind (blueprint : Id) : DbOp
  | blueprintUpdate (id : Id) (body : JObject) : DbOp
  | blueprintSave (id : Id) : DbOp
  | blueprintRemove (id : Id) : DbOp
  | objectStoreDelete (keyPrefix : String) : DbOp

/-- The state outside the request: the collections, the keys of the objects in
the S3 bucket, and the log of operations issued so far. -/
structure World where
  projects : List Project
  blueprints : List Blueprint
  tasks : List Task
  objects : List String
  log : List DbOp

/-- Append an operation to the log. -/
def World.record (w : World) (op : DbOp) : World :=
  { w with log := w.log ++ [op] }

/-- An error thrown with `ctx.throw`. -/
structure HttpError where
  status : Nat
  message : String
  deriving DecidableEq

/-- The Koa context of a request, after the `id` param handler has loaded
`ctx.blueprint`. A response without body has `body = none`. -/
structure Ctx where
  me : User
  blueprint : Blueprint
  requestBody : JObject
  status : Nat
  body : Option JVal

/-- A request as it reaches the router: the actor, the blueprint the `id` param
resolved to, and the parsed body. -/
structure Request where
  me : User
  blueprint : Blueprint
  body : JObject

/-- The context Koa starts a request with: status 404 and no body. -/
def Ctx.ofRequest (r : Request) : Ctx :=
  { me := r.me, blueprint := r.blueprint, requestBody := r.body, status := 404, body := none }

/-- Assigning `ctx.body = v`: Koa sets the status to 200 with it. -/
def Ctx.setBody (ctx : Ctx) (v : JVal) : Ctx :=
  { ctx with body := some v, status := 200 }

/-- Assigning `ctx.status = n`. -/
def Ctx.setStatus (ctx : Ctx) (n : Nat) : Ctx :=
  { ctx with status := n }

/-- What running a middleware leaves: the world, and either the context or the
error that was thrown. -/
structure Outcome where
  world : World
  result : Except HttpError Ctx

/-- A Koa middleware or route handler. -/
abbrev Handler := World → Ctx → Outcome

/-- The status the client receives. -/
def Outcome.status (o : Outcome) : Nat :=
  match o.result with
  | .ok ctx => ctx.status
  | .error e => e.status

/-- The body the client receives when no error was thrown. -/
def Outcome.body (o : Outcome) : Option JVal :=
  match o.result with
  | .ok ctx => ctx.body
  | .error _ => none

/-! ## Model operations -/

/-- The query `Project.findById(id)`. -/
def Project.findById (w : World) (id : Id) : Option Project :=
  w.projects.find? (fun p => p.id == id)

/-- Whether a task matches the query `{ 'locationOnBlueprint.blueprint': id }`. -/
def Task.locatedOn (id : Id) (t : Task) : Bool :=
  match t.locationOnBlueprint with
  | some loc => loc.blueprint == id
  | none => false

/-- The query `Task.find({ 'locationOnBlueprint.blueprint': id })`. -/
def Task.find (w : World) (id : Id) : List Task :=
  w.tasks.filter (Task.locatedOn id)

/-- The method `blueprint.save()`: the stored document with the same id is replaced by the
in-memory one. -/
def Blueprint.save (w : World) (b : Blueprint) : World :=
  World.record
    { w with blueprints := w.blueprints.map (fun (s : Blueprint) => if s.id = b.id then b else s) }
    (.blueprintSave b.id)

/-- The method `blueprint.remove()`: the document is removed from the collection and, as
the controller's tests note, the post-remove hooks remove the files on S3: the
objects whose key starts with the blueprint's `keyPrefix`. -/
def Blueprint.remove (w : World) (b : Blueprint) : World :=
  let w1 : World :=
    { w with
      blueprints := w.blueprints.filter (fun (s : Blueprint) => s.id != b.id),
      objects := w.objects.filter (fun (k : String) => !b.keyPrefix.toList.isPrefixOf k.toList) }
  (w1.record (.blueprintRemove b.id)).record (.objectStoreDelete b.keyPrefix)

/-- Casting a JSON value to a page descriptor `{ rot, size: { unit, height, width } }`. -/
def castPage : JVal → Option Page
  | .obj kvs =>
    match kvs.lookup "rot", kvs.lookup "size" with
    | some (.num r), some (.obj sz) =>
      match sz.lookup "unit", sz.lookup "height", sz.lookup "width" with
      | some (.str u), some (.num h), some (.num wd) =>
        if r.den = 1 then some ⟨r.num, ⟨u, h, wd⟩⟩ else none
      | _, _, _ => none
    | _, _ => none
  | _ => none

/-- One entry of a `$set`: a path of the Blueprint schema takes the value when it
has the type of the path (a CastError, `none`, when it has not); a key that is not
a path of the schema is dropped. -/
def Blueprint.setPath (b : Blueprint) (key : String) (v : JVal) : Option Blueprint :=
  if key = "name" then
    match v with
    | .str s => some { b with name := s }
    | _ => none
  else if key = "keyPrefix" then
    match v with
    | .str s => some { b with keyPrefix := s }
    | _ => none
  else if key = "project" then
    match v with
    | .str s => some { b with project := s }
    | _ => none
  else if key = "progress" then
    match v with
    | .num q => some { b with progress := q }
    | _ => none
  else if key = "pages" then
    match v with
    | .arr xs => (xs.mapM castPage).map (fun ps => { b with pages := ps })
    | _ => none
  else if key = "deleted" then
    match v with
    | .bool d => some { b with deleted := d }
    | _ => none
  else
    some b

/-- All entries of an update document applied to a blueprint, in order. -/
def Blueprint.applySet (b : Blueprint) : JObject → Option Blueprint
  | [] => some b
  | (k, v) :: rest =>
    match b.setPath k v with
    | none => none
    | some b1 => Blueprint.applySet b1 rest

/-- The method `blueprint.update(body)`, the update of Mongoose documents: the entries of
`body` are set on the stored document with the id of `blueprint`; the in-memory
document is not touched. The result is `none` when the body does not cast. -/
def Blueprint.update (w : World) (b : Blueprint) (body : JObject) : Option World :=
  match Blueprint.applySet b body with
  | none => none
  | some _ =>
    let stored : List Blueprint := w.blueprints.map
      (fun (s : Blueprint) => if s.id = b.id then (Blueprint.applySet s body).getD s else s)
    some (World.record { w with blueprints := stored } (.blueprintUpdate b.id body))

/-! ## Request validation -/

/-- The types a validation rule may ask for (`String`, `Number`, `Boolean`, ...). -/
inductive JType where
  | string : JType
  | number : JType
  | boolean : JType
  | array : JType
  | object : JType
  deriving DecidableEq

/-- A validation rule `{ type, optional }`. -/
structure Rule where
  type : JType
  optional : Bool
  deriving DecidableEq

/-- Whether a JSON value has the type a rule asks for. -/
def JVal.hasType : JVal → JType → Bool
  | .str _, .string => true
  | .num _, .number => true
  | .bool _, .boolean => true
  | .arr _, .array => true
  | .obj _, .object => true
  | _, _ => false

/-- The function `_.mapValues` of lodash, on objects as lists of entries. -/
def mapValues {α β : Type} (o : List (String × α)) (f : α → β) : List (String × β) :=
  o.map (fun kv => (kv.1, f kv.2))

/-- Modelled from the spec: `validate` (the module `api-server/validate`) is not
part of the sources at hand. The spec has the update accept "only
`{ name?: string }`" and reject attempts to change other fields: a body is
accepted, and returned as it is, when each of its keys has a rule and a value of
the rule's type and no key with a non-optional rule is missing; it is rejected
with a client error otherwise. -/
def validate (body : JObject) (rules : List (String × Rule)) : Except HttpError JObject :=
  if body.all (fun kv =>
        match rules.lookup kv.1 with
        | some r => kv.2.hasType r.type
        | none => false)
      && rules.all (fun kr => kr.2.optional || (body.lookup kr.1).isSome) then
    .ok body
  else
    .error ⟨400, "Bad Request"⟩

/-! ## The controller -/

/-- The `requireProjectMembership` middleware. A project that is not found makes
`project.getMemberType` a TypeError, which Koa answers with status 500. -/
def requireProjectMembership (m : Models) (next : Handler) : Handler := fun w ctx =>
  let w1 := w.record (.projectFindById ctx.blueprint.project)
  match Project.findById w ctx.blueprint.project with
  | none => ⟨w1, .error ⟨500, "Internal Server Error"⟩⟩
  | some project =>
    if !truthy (m.getMemberType project ctx.me) then
      ⟨w1, .error ⟨403, "Forbidden"⟩⟩
    else
      next w1 ctx

/-- The handler of `DELETE /blueprints/id/:id`. -/
def deleteBlueprint : Handler := fun w ctx =>
  let blueprint := ctx.blueprint
  let w1 := w.record (.taskFind blueprint.id)
  let relatedTasks := Task.find w blueprint.id
  if relatedTasks.length > 0 then
    ⟨w1, .error ⟨409, "existingRelativeTasks"⟩⟩
  else
    let blueprint := { blueprint with deleted := true }
    let w2 := Blueprint.save w1 blueprint
    ⟨w2, .ok ({ ctx with blueprint := blueprint }.setStatus 204)⟩

/-- The handler of `GET /blueprints/id/:id/tasks` (`tasksRouter.get('/')`). -/
def getBlueprintTasks (m : Models) : Handler := fun w ctx =>
  let w1 := w.record (.taskFind ctx.blueprint.id)
  let tasks := Task.find w ctx.blueprint.id
  ⟨w1, .ok (ctx.setBody (.arr (tasks.map m.exportTask)))⟩

/-- The handler of `GET /blueprints/id/:id`. -/
def getBlueprint (m : Models) : Handler := fun w ctx =>
  ⟨w, .ok (ctx.setBody (m.exportBlueprint ctx.blueprint))⟩

/-- The handler of `PUT /blueprints/id/:id`. A rejected update (a cast error) is
answered by Koa with status 500. -/
def putBlueprint : Handler := fun w ctx =>
  let schema : List (String × JType) := [("name", .string)]
  match validate ctx.requestBody
      (mapValues schema (fun type => ({ type := type, optional := true } : Rule))) with
  | .error e => ⟨w, .error e⟩
  | .ok body =>
    match Blueprint.update w ctx.blueprint body with
    | none => ⟨w, .error ⟨500, "Internal Server Error"⟩⟩
    | some w1 => ⟨w1, .ok (ctx.setStatus 204)⟩

/-- The four routes of the router that `requireProjectMembership` guards. -/
inductive Route where
  | getById : Route
  | putById : Route
  | deleteById : Route
  | getTasks : Route
  deriving DecidableEq

/-- The handler the router registers behind the guard of each route. -/
def Route.handler (m : Models) : Route → Handler
  | .getById => getBlueprint m
  | .putById => putBlueprint
  | .deleteById => deleteBlueprint
  | .getTasks => getBlueprintTasks m

/-- A request served by the router: the guard, then the handler of the route. -/
def serve (m : Models) (r : Route) (w : World) (req : Request) : Outcome :=
  requireProjectMembership m (r.handler m) w (Ctx.ofRequest req)

/-! ## The conversion job -/

namespace Conversion

/-- Modelled from the spec: the code of the conversion job is not part of the
sources at hand. A page of the uploaded document as the job reads it: its
rotation and the size of its page box. -/
structure SourcePage where
  rot : Int
  size : PageSize
  deriving DecidableEq

/-- Modelled from the spec: the page descriptor the job determines for a source
page ("determine page geometry (width, height, unit, rotation)"). -/
def SourcePage.descriptor (p : SourcePage) : Page :=
  { rot := p.rot, size := p.size }

/-- Modelled from the spec: the two kinds of event published to the room of the
project, progress ticks and the terminal creation notification. -/
inductive NotificationEvent where
  | progress (project blueprint : Id) (value : ℚ) : NotificationEvent
  | create (project blueprint creator : Id) : NotificationEvent
  deriving DecidableEq

/-- Modelled from the spec: the states of the job, `Pending → Rendering →
Complete`, and the absorbing `Failed`. -/
inductive Phase where
  | pending : Phase
  | rendering : Phase
  | complete : Phase
  | failed : Phase
  deriving DecidableEq

/-- Modelled from the spec: a conversion job, the only writer of the `pages` and
`progress` of its record: the record as persisted, the pages still to render,
the keys written to the object store and the events published. -/
structure Job where
  phase : Phase
  record : Blueprint
  creator : Id
  totalPages : Nat
  remaining : List SourcePage
  objects : List String
  events : List NotificationEvent

/-- Modelled from the spec: `create(name, project, keyPrefix)` of the record
access layer, "progress=0, pages=[]". -/
def createRecord (id : Id) (name : String) (project : Id) (keyPrefix : String) : Blueprint :=
  { id := id, name := name, keyPrefix := keyPrefix, project := project,
    progress := 0, pages := [], deleted := false }

/-- Modelled from the spec: the job as enqueued for a freshly created record. -/
def Job.enqueue (record : Blueprint) (creator : Id) (doc : List SourcePage) : Job :=
  { phase := .pending, record := record, creator := creator, totalPages := doc.length,
    remaining := doc, objects := [], events := [] }

/-- Modelled from the spec: one transition of the job. `renders i` tells whether
rendering and storing the page of index `i` succeeds. In `Rendering` the next
page is rendered, its image stored under `keyPrefix/<pageIndex>`, its descriptor
appended, `progress = pagesRendered / totalPages` recomputed and a progress event
published; after the last page `progress` is forced to 1 and the terminal event
published; a rendering error halts the job with the record as last persisted. -/
def Job.step (renders : Nat → Bool) (j : Job) : Job :=
  match j.phase with
  | .pending => { j with phase := .rendering }
  | .rendering =>
    match j.remaining with
    | [] =>
      { j with
        phase := .complete,
        record := { j.record with progress := 1 },
        events := j.events ++ [.create j.record.project j.record.id j.creator] }
    | p :: rest =>
      let pageIndex := j.record.pages.length
      if renders pageIndex then
        let pages := j.record.pages ++ [p.descriptor]
        let progress : ℚ := (pages.length : ℚ) / (j.totalPages : ℚ)
        { j with
          record := { j.record with pages := pages, progress := progress },
          remaining := rest,
          objects := j.objects ++ [j.record.keyPrefix ++ "/" ++ toString pageIndex],
          events := j.events ++ [.progress j.record.project j.record.id progress] }
      else
        { j with phase := .failed }
  | .complete => j
  | .failed => j

/-- Modelled from the spec: the job after `n` transitions. -/
def Job.run (renders : Nat → Bool) : Nat → Job → Job
  | 0, j => j
  | n + 1, j => Job.run renders n (j.step renders)

end Conversion

/-! ## The TextInput component -/

namespace TextInput

/-- A `ValidationResult`: a level (`'error'`, ...) and a message. -/
structure ValidationResult where
  level : String
  message : String
  deriving DecidableEq

/-- The props the validation logic reads. `value` is `none` when the prop is
`undefined`; `validator` is `none` when the prop is falsy; a validator returns
`none` for `null`. -/
structure Props where
  value : Option String
  validator : Option (String → Option ValidationResult)
  validationResult : Option ValidationResult

/-- The `defaultProps` of the component: `validator: () => null`. -/
def defaultProps : Props :=
  { value := none, validator := some (fun _ => none), validationResult := none }

/-- The DOM element the `ref` callback stores in the state. -/
structure InputElement where
  value : String
  deriving DecidableEq

/-- The state of the component. -/
structure State where
  value : String
  rightLabel : String
  hasBeenEdited : Bool
  focused : Bool
  input : Option InputElement
  deriving DecidableEq

/-- A call of one of the callback props. -/
inductive Call where
  | onChange (value : String) (validationResult : Option ValidationResult) : Call
  | onFocus : Call
  | onBlur : Call
  deriving DecidableEq

/-- A component instance: its props, its state, and the calls it has made to
the callback props so far. -/
structure Component where
  props : Props
  state : State
  calls : List Call

/-- The initial `state` of the class. -/
def initialState : State :=
  { value := "", rightLabel := "", hasBeenEdited := false, focused := false, input := none }

/-- The callback `onInputMount`: the `ref` callback stores the element. -/
def Component.onInputMount (c : Component) (input : InputElement) : Component :=
  { c with state := { c.state with input := some input } }

/-- A freshly mounted component: the initial state, with the rendered element
stored by the `ref` callback. -/
def mount (props : Props) : Component :=
  Component.onInputMount { props := props, state := initialState, calls := [] }
    { value := props.value.getD "" }

/-- The getter `value`: `this.state.input.value`, a TypeError without element. -/
def Component.value (c : Component) : Except String String :=
  match c.state.input with
  | some input => .ok input.value
  | none => .error "TypeError"

/-- The method `validate()`. -/
def Component.validate (c : Component) : Except String (Option ValidationResult) :=
  if !c.state.hasBeenEdited then
    .ok none
  else
    match c.props.validator with
    | none => .ok none
    | some validator =>
      match c.value with
      | .ok v => .ok (validator v)
      | .error e => .error e

/-- The getter `controlled`. -/
def Component.controlled (c : Component) : Bool :=
  c.props.value.isSome

/-- The getter `validationMessage`. -/
def Component.validationMessage (c : Component) : Except String String :=
  match c.props.validationResult with
  | some result => .ok result.message
  | none =>
    match c.validate with
    | .ok (some result) => .ok result.message
    | .ok none => .ok ""
    | .error e => .error e

/-- The getter `validationTooltip`: `message && <Tooltip>{message}</Tooltip>`,
the tooltip with its text, or `none` for the falsy empty message. -/
def Component.validationTooltip (c : Component) : Except String (Option String) :=
  match c.validationMessage with
  | .ok message => .ok (if message = "" then none else some message)
  | .error e => .error e

/-- The getter `tooltipVisible`. -/
def Component.tooltipVisible (c : Component) : Except String Bool :=
  if c.state.focused then
    .ok false
  else if c.props.validationResult.isSome then
    .ok true
  else
    match c.validate with
    | .ok result => .ok result.isSome
    | .error e => .error e

/-- The `tooltip` prop that `render` gives to the `TooltipGenerator`:
`this.tooltipVisible && this.validationTooltip`. A tooltip is shown when it is
`some`. -/
def Component.renderedTooltip (c : Component) : Except String (Option String) :=
  match c.tooltipVisible with
  | .ok true => c.validationTooltip
  | .ok false => .ok none
  | .error e => .error e

/-- The handler `onFocus`. -/
def Component.onFocus (c : Component) : Component :=
  { c with state := { c.state with focused := true }, calls := c.calls ++ [.onFocus] }

/-- The handler `onBlur`. -/
def Component.onBlur (c : Component) : Component :=
  { c with state := { c.state with focused := false }, calls := c.calls ++ [.onBlur] }

/-- The handler `onChange`, for an event whose `target.value` is `value`. -/
def Component.onChange (c : Component) (value : String) : Component :=
  let propagate := fun (c1 : Component) =>
    let validationResult :=
      match c1.props.validator with
      | some validator => validator value
      | none => none
    { c1 with calls := c1.calls ++ [.onChange value validationResult] }
  if c.controlled then
    propagate { c with state := { c.state with hasBeenEdited := true } }
  else
    propagate { c with state := { c.state with value := value, hasBeenEdited := true } }

/-- The events the rendered element sends to the component. -/
inductive Event where
  | focus : Event
  | blur : Event
  | change (value : String) : Event
  deriving DecidableEq

/-- Whether an event is a change. -/
def Event.isChange : Event → Bool
  | .change _ => true
  | _ => false

/-- An event reaching the component. A change event has the element as its
target, so the element holds the value the handler reads from the event. -/
def Component.dispatch (c : Component) : Event → Component
  | .focus => c.onFocus
  | .blur => c.onBlur
  | .change value =>
    Component.onChange
      { c with state := { c.state with input := c.state.input.map (fun _ => { value := value }) } }
      value

/-- The component after a sequence of events. -/
def Component.run (c : Component) (events : List Event) : Component :=
  events.foldl Component.dispatch c

/-- Whether the element has the focus after a sequence of events on an element
without focus: the last `focus` or `blur` event is a `focus`. -/
def focusedAfter (events : List Event) : Bool :=
  events.foldl
    (fun focused e =>
      match e with
      | .focus => true
      | .blur => false
      | .change _ => focused)
    false

/-- Whether the validation tooltip is shown by `render`. -/
def Component.tooltipShown (c : Component) : Bool :=
  match c.renderedTooltip with
  | .ok (some _) => true
  | _ => false

/-! ### The props as an object -/

/-- A JavaScript value of a prop, as far as the component looks at it. Objects,
functions and React nodes are one case: they are all truthy. The number `NaN`
is left out. -/
inductive PropValue where
  | undefined : PropValue
  | null : PropValue
  | bool (b : Bool) : PropValue
  | number (n : Int) : PropValue
  | string (s : String) : PropValue
  | object (name : String) : PropValue
  deriving DecidableEq

/-- JavaScript truthiness. -/
def PropValue.truthy : PropValue → Bool
  | .undefined => false
  | .null => false
  | .bool b => b
  | .number n => n != 0
  | .string s => s != ""
  | .object _ => true

/-- The operator `a && b`: `a` when it is falsy, `b` otherwise. -/
def PropValue.and (a b : PropValue) : PropValue :=
  if a.truthy then b else a

/-- The props object `this.props` (or `nextProps`) as a list of entries. -/
abbrev PropsObject := List (String × PropValue)

/-- Reading `props.key`: the value of the entry, `undefined` without entry. -/
def PropsObject.get (props : PropsObject) (key : String) : PropValue :=
  (props.lookup key).getD .undefined

/-- The key a value names when it is used as a path of `_.omit`. -/
def PropValue.toKey : PropValue → Option String
  | .string s => some s
  | _ => none

/-- The function `_.omit` of lodash for paths that are plain keys: the entries
whose key is not among the paths. (Lean keeps the name `omit` for itself.) -/
def omitKeys (object : PropsObject) (paths : List PropValue) : PropsObject :=
  object.filter (fun kv => !(paths.filterMap PropValue.toKey).contains kv.1)

/-- The getter `inputProps`. -/
def inputProps (props : PropsObject) : PropsObject :=
  omitKeys props
    ([ PropValue.string "popperOptions",
       PropValue.string "validator",
       PropValue.string "rightLabel",
       PropValue.string "textarea",
       PropValue.string "validationResult",
       (props.get "readOnly").and (.string "autoFocus") ].filter PropValue.truthy)

/-- The two elements `renderInput` can render. -/
inductive Tag where
  | input : Tag
  | textarea : Tag
  deriving DecidableEq

/-- A rendered element: its tag and the props it is given. The `ref` is not a
prop; it is what `mount` models. -/
structure Element where
  tag : Tag
  props : PropsObject
  deriving DecidableEq

/-- Giving a prop to an element after a spread: the value replaces the one of an
entry with the same key, or is added. -/
def setProp (props : PropsObject) (key : String) (v : PropValue) : PropsObject :=
  if props.any (fun kv => kv.1 == key) then
    props.map (fun kv => if kv.1 == key then (key, v) else kv)
  else
    props ++ [(key, v)]

/-- The method `renderInput`: a `<textarea>` or an `<input>` with the spread
`inputProps`, then the handlers of the component as `onChange`, `onFocus` and
`onBlur`. -/
def renderInput (props : PropsObject) : Element :=
  let given :=
    setProp
      (setProp (setProp (inputProps props) "onChange" (.object "this.onChange"))
        "onFocus" (.object "this.onFocus"))
      "onBlur" (.object "this.onBlur")
  if (props.get "textarea").truthy then
    { tag := .textarea, props := given }
  else
    { tag := .input, props := given }

/-- A call of a method of the DOM element. -/
inductive DomCall where
  | focus : DomCall
  deriving DecidableEq

/-- The method `componentWillReceiveProps(nextProps)`, as the calls it makes on
the element in the state. -/
def Component.componentWillReceiveProps (c : Component) (nextProps : PropsObject) :
    List DomCall :=
  if (nextProps.get "autoFocus").truthy
      && c.state.input.isSome
      && !(nextProps.get "disabled").truthy
      && !(nextProps.get "readOnly").truthy then
    [.focus]
  else
    []

/-! ### The handler `onChange` in time -/

/-- The handler `onChange` with the moment of the call of the `onChange` prop:
`atCall` is the instance as `propagate` finds it when it calls
`this.props.onChange`, `after` the component when the event is handled.
The handler runs inside an event handler of React, where `setState` is batched:
in the controlled branch `propagate()` is called right after `setState`, on the
state as it was; in the other branch `propagate` is the callback of `setState`
and runs on the new state. -/
structure OnChangeRun where
  atCall : Component
  after : Component

/-- The handler `onChange` for an event whose `target.value` is `value`, with
the instance at the moment the `onChange` prop is called. -/
def Component.onChangeRun (c : Component) (value : String) : OnChangeRun :=
  let validationResult :=
    match c.props.validator with
    | some validator => validator value
    | none => none
  if c.controlled then
    let updated : Component := { c with state := { c.state with hasBeenEdited := true } }
    { atCall := c,
      after := { updated with calls := updated.calls ++ [.onChange value validationResult] } }
  else
    let updated : Component :=
      { c with state := { c.state with value := value, hasBeenEdited := true } }
    { atCall := updated,
      after := { updated with calls := updated.calls ++ [.onChange value validationResult] } }

/-- A change event reaching the component, with the moment of the call of the
`onChange` prop: the element, the target of the event, holds the value. -/
def Component.changeRun (c : Component) (value : String) : OnChangeRun :=
  Component.onChangeRun
    { c with state := { c.state with input := c.state.input.map (fun _ => { value := value }) } }
    value

end TextInput

/-! ## Data of the test suites -/

namespace Fixtures

/-- The project of the controller's tests. -/
def eiffelTower : Project := { id := "eiffelTower" }

/-- A member of the project. -/
def fabien : User := { id := "fabien" }

/-- A user who is not a member of the project. -/
def marcel : User := { id := "marcel" }

/-- Model methods for the tests: fabien is the one member of the project. -/
def models : Models :=
  { getMemberType := fun p u => if p.id = "eiffelTower" ∧ u.id = "fabien" then some "admin" else none,
    exportBlueprint := fun b => .obj [("_id", .str b.id), ("name", .str b.name)],
    exportTask := fun t => .obj [("_id", .str t.id), ("description", .str t.description)] }

/-- The blueprint the `delete` tests create before each test. -/
def blueprintToDelete : Blueprint :=
  { id := "59c38b54b367bb351056e1a8",
    name := "1-1-0-plan-construction-maison",
    keyPrefix := "fixtures/plan-maison",
    project := "eiffelTower",
    progress := 1,
    pages := [{ rot := 0, size := { unit := "pts", height := 1197 / 4, width := 807 / 2 } }],
    deleted := false }

/-- The task the `delete` tests localize on the blueprint. -/
def task66 : Task :=
  { id := "eiffelTower-66",
    project := "eiffelTower",
    description := "123",
    locationOnBlueprint := some
      { pageNumber := 1, blueprint := "59c38b54b367bb351056e1a8", x := 308, y := 295 },
    author := "fabien",
    number := 66,
    important := false,
    closed := false }

/-- A task without location, as the `get list` test creates one. -/
def task11 : Task :=
  { id := "eiffelTower-11",
    project := "eiffelTower",
    description := "Tache",
    locationOnBlueprint := none,
    author := "fabien",
    number := 11,
    important := false,
    closed := false }

/-- The objects of the blueprint in the bucket, and one of another blueprint. -/
def bucket : List String :=
  ["fixtures/plan-maison/source.pdf", "fixtures/plan-maison/0.png", "other/0.png"]

/-- The database with the blueprint and no task. -/
def world : World :=
  { projects := [eiffelTower], blueprints := [blueprintToDelete], tasks := [task11],
    objects := bucket, log := [] }

/-- The database with the blueprint and a task localized on it. -/
def worldWithTask : World :=
  { world with tasks := [task66, task11] }

/-- A request of fabien on the blueprint. -/
def request (body : JObject) : Request :=
  { me := fabien, blueprint := blueprintToDelete, body := body }

/-- A document of three pages, as the one the creation test uploads. -/
def chicken : List Conversion.SourcePage :=
  [{ rot := 0, size := { unit := "pts", height := 842, width := 595 } },
   { rot := 0, size := { unit := "pts", height := 842, width := 595 } },
   { rot := 90, size := { unit := "pts", height := 595, width := 842 } }]

/-- The record the upload of the three-page document creates. -/
def chickenRecord : Blueprint :=
  Conversion.createRecord "chickenId" "chicken" "eiffelTower" "uploads/chicken"

/-- The validator of the component's test: an error result for every value. -/
def alwaysError : String → Option TextInput.ValidationResult :=
  fun _ => some { level := "error", message := "Error message" }

/-- The props of the component's test: `<TextInput validator={validator} />`. -/
def errorProps : TextInput.Props :=
  { TextInput.defaultProps with validator := some alwaysError }

/-- The props of a controlled input, `<TextInput value="a" validator={validator} />`. -/
def controlledProps : TextInput.Props :=
  { TextInput.defaultProps with value := some "a", validator := some alwaysError }

/-- The props object of `<TextInput readOnly autoFocus />` with the defaults. -/
def readOnlyProps : TextInput.PropsObject :=
  [("validator", .object "validator"), ("onChange", .object "onChange"),
   ("onBlur", .object "onBlur"), ("onFocus", .object "onFocus"),
   ("textarea", .bool false), ("popperOptions", .object "popperOptions"),
   ("readOnly", .bool true), ("autoFocus", .bool true)]

/-- The props object of the update `ti.setProps({ autoFocus: true })`. -/
def autoFocusProps : TextInput.PropsObject :=
  [("validator", .object "validator"), ("onChange", .object "onChange"),
   ("onBlur", .object "onBlur"), ("onFocus", .object "onFocus"),
   ("textarea", .bool false), ("popperOptions", .object "popperOptions"),
   ("autoFocus", .bool true)]

/-- A request of marcel on the blueprint. -/
def requestOfMarcel : Request :=
  { me := marcel, blueprint := blueprintToDelete, body := [] }

end Fixtures

/-! ## Properties of the controller -/

/-- For a member of the owning project the guard hands the request to the
handler of the route, after one project query. -/
theorem serve_of_member (m : Models) (r : Route) (w : World) (req : Request) (project : Project)
    (hp : Project.findById w req.blueprint.project = some project)
    (hm : truthy (m.getMemberType project req.me) = true) :
    serve m r w req =
      r.handler m (w.record (.projectFindById req.blueprint.project)) (Ctx.ofRequest req) := by
  simp [serve, requireProjectMembership, Ctx.ofRequest, hp, hm]

/-- The tasks a query finds are those located on the blueprint. -/
theorem mem_find_iff (w : World) (id : Id) (t : Task) :
    t ∈ Task.find w id ↔
      t ∈ w.tasks ∧ Option.map TaskLocation.blueprint t.locationOnBlueprint = some id := by
  unfold Task.find Task.locatedOn
  rw [List.mem_filter]
  cases h : t.locationOnBlueprint <;> simp

/-- Logging an operation leaves the collections as they are. -/
theorem find_record (w : World) (op : DbOp) (id : Id) :
    Task.find (w.record op) id = Task.find w id := rfl

/-- The delete handler when the task query finds a task: it throws. -/
theorem deleteBlueprint_of_found (w : World) (ctx : Ctx)
    (h : Task.find w ctx.blueprint.id ≠ []) :
    deleteBlueprint w ctx =
      ⟨w.record (.taskFind ctx.blueprint.id), .error ⟨409, "existingRelativeTasks"⟩⟩ := by
  have hlen : 0 < (Task.find w ctx.blueprint.id).length := List.length_pos.2 h
  simp [deleteBlueprint, hlen]

/-- The delete handler when the task query finds nothing: it saves the blueprint
with `deleted = true` and sets the status 204. -/
theorem deleteBlueprint_of_not_found (w : World) (ctx : Ctx)
    (h : Task.find w ctx.blueprint.id = []) :
    deleteBlueprint w ctx =
      ⟨Blueprint.save (w.record (.taskFind ctx.blueprint.id)) { ctx.blueprint with deleted := true },
        .ok ({ ctx with blueprint := { ctx.blueprint with deleted := true } }.setStatus 204)⟩ := by
  simp [deleteBlueprint, h]

/-- C1: when at least one task is located on the blueprint, `DELETE
/blueprints/id/:id` by a project member throws 409 `existingRelativeTasks`; the
blueprints, the tasks and the bucket are as before, and the only operations
issued are the project query of the guard and the task query (no save). -/
theorem delete_blocked_by_located_task (m : Models) (w : World) (req : Request)
    (project : Project) (t : Task)
    (hp : Project.findById w req.blueprint.project = some project)
    (hm : truthy (m.getMemberType project req.me) = true)
    (ht : t ∈ w.tasks)
    (hloc : Option.map TaskLocation.blueprint t.locationOnBlueprint = some req.blueprint.id) :
    (serve m .deleteById w req).result = .error ⟨409, "existingRelativeTasks"⟩ ∧
    (serve m .deleteById w req).status = 409 ∧
    (serve m .deleteById w req).world.blueprints = w.blueprints ∧
    (serve m .deleteById w req).world.tasks = w.tasks ∧
    (serve m .deleteById w req).world.objects = w.objects ∧
    (serve m .deleteById w req).world.log =
      w.log ++ [.projectFindById req.blueprint.project, .taskFind req.blueprint.id] := by
  have hfind : t ∈ Task.find w req.blueprint.id := (mem_find_iff w _ t).2 ⟨ht, hloc⟩
  have hne : Task.find (w.record (.projectFindById req.blueprint.project))
      (Ctx.ofRequest req).blueprint.id ≠ [] := by
    rw [find_record]
    exact List.ne_nil_of_mem hfind
  rw [serve_of_member m _ w req project hp hm]
  simp only [Route.handler]
  rw [deleteBlueprint_of_found _ _ hne]
  simp [Outcome.status, World.record, Ctx.ofRequest]

/-- Witness of C1: the test "doesn't work if at least one task is localized on
the blueprint". -/
theorem delete_blocked_by_located_task_witness :
    (serve Fixtures.models .deleteById Fixtures.worldWithTask (Fixtures.request [])).status
      = 409 :=
  (delete_blocked_by_located_task Fixtures.models Fixtures.worldWithTask (Fixtures.request [])
    Fixtures.eiffelTower Fixtures.task66 (by decide) (by decide) (by decide) (by decide)).2.1

/-- The task query finds nothing exactly when no task is located on the
blueprint. -/
theorem find_eq_nil_iff (w : World) (id : Id) :
    Task.find w id = [] ↔
      ∀ t ∈ w.tasks, Option.map TaskLocation.blueprint t.locationOnBlueprint ≠ some id := by
  rw [List.eq_nil_iff_forall_not_mem]
  constructor
  · intro h t ht hloc
    exact h t ((mem_find_iff w id t).2 ⟨ht, hloc⟩)
  · intro h t ht
    exact h t ((mem_find_iff w id t).1 ht).1 ((mem_find_iff w id t).1 ht).2

/-- C2: for a project member, when no task is located on the blueprint, `DELETE
/blueprints/id/:id` answers 204 without body and saves the record with `deleted =
true` and every other field (id, name, project, keyPrefix, progress, pages) as it
was; other stored blueprints and the tasks are as before. The answer is 204
exactly when no task is located on the blueprint, and 409 exactly when one is. -/
theorem delete_succeeds_iff_no_located_task (m : Models) (w : World) (req : Request)
    (project : Project)
    (hp : Project.findById w req.blueprint.project = some project)
    (hm : truthy (m.getMemberType project req.me) = true) :
    ((∀ t ∈ w.tasks,
        Option.map TaskLocation.blueprint t.locationOnBlueprint ≠ some req.blueprint.id) →
      ∃ saved : Blueprint,
        (serve m .deleteById w req).result =
          .ok { me := req.me, blueprint := saved, requestBody := req.body, status := 204,
                body := none } ∧
        (serve m .deleteById w req).body = none ∧
        (serve m .deleteById w req).world.blueprints =
          w.blueprints.map (fun s => if s.id = req.blueprint.id then saved else s) ∧
        (serve m .deleteById w req).world.tasks = w.tasks ∧
        (serve m .deleteById w req).world.log =
          w.log ++ [.projectFindById req.blueprint.project, .taskFind req.blueprint.id,
            .blueprintSave req.blueprint.id] ∧
        saved.deleted = true ∧
        saved.id = req.blueprint.id ∧
        saved.name = req.blueprint.name ∧
        saved.project = req.blueprint.project ∧
        saved.keyPrefix = req.blueprint.keyPrefix ∧
        saved.progress = req.blueprint.progress ∧
        saved.pages = req.blueprint.pages) ∧
    ((serve m .deleteById w req).status = 204 ↔
      ∀ t ∈ w.tasks,
        Option.map TaskLocation.blueprint t.locationOnBlueprint ≠ some req.blueprint.id) ∧
    ((serve m .deleteById w req).status = 409 ↔
      ∃ t ∈ w.tasks,
        Option.map TaskLocation.blueprint t.locationOnBlueprint = some req.blueprint.id) := by
  rw [serve_of_member m _ w req project hp hm]
  simp only [Route.handler]
  by_cases h : Task.find w req.blueprint.id = []
  · have hnone := (find_eq_nil_iff w req.blueprint.id).1 h
    have h1 : Task.find (w.record (.projectFindById req.blueprint.project))
        (Ctx.ofRequest req).blueprint.id = [] := by
      rw [find_record]; exact h
    rw [deleteBlueprint_of_not_found _ _ h1]
    refine ⟨fun _ => ⟨{ req.blueprint with deleted := true }, ?_⟩, ?_, ?_⟩
    · simp [Outcome.body, World.record, Ctx.ofRequest, Ctx.setStatus, Blueprint.save]
    · simp only [Outcome.status, Ctx.setStatus]
      exact ⟨fun _ => hnone, fun _ => by first | rfl | trivial⟩
    · simp only [Outcome.status, Ctx.setStatus]
      constructor
      · intro h2
        exact absurd h2 (by decide)
      · rintro ⟨t, ht, hloc⟩
        exact absurd hloc (hnone t ht)
  · have h1 : Task.find (w.record (.projectFindById req.blueprint.project))
        (Ctx.ofRequest req).blueprint.id ≠ [] := by
      rw [find_record]; exact h
    have hsome : ∃ t ∈ w.tasks,
        Option.map TaskLocation.blueprint t.locationOnBlueprint = some req.blueprint.id := by
      by_contra hcon
      apply h
      rw [find_eq_nil_iff]
      intro t ht hloc
      exact hcon ⟨t, ht, hloc⟩
    rw [deleteBlueprint_of_found _ _ h1]
    refine ⟨fun hnone => ?_, ?_, ?_⟩
    · obtain ⟨t, ht, hloc⟩ := hsome
      exact absurd hloc (hnone t ht)
    · simp only [Outcome.status]
      constructor
      · intro h2
        exact absurd h2 (by decide)
      · intro hnone
        obtain ⟨t, ht, hloc⟩ := hsome
        exact absurd hloc (hnone t ht)
    · simp only [Outcome.status]
      exact ⟨fun _ => hsome, fun _ => by first | rfl | trivial⟩

/-- Witness of C2: the test "delete / works", on the database without located
task. -/
theorem delete_succeeds_iff_no_located_task_witness :
    (serve Fixtures.models .deleteById Fixtures.world (Fixtures.request [])).status = 204 :=
  (delete_succeeds_iff_no_located_task Fixtures.models Fixtures.world (Fixtures.request [])
    Fixtures.eiffelTower (by decide) (by decide)).2.1.2 (by decide)

/-- C3: when `getMemberType` of the owning project returns a falsy value for the
actor, the guard throws 403 whatever handler follows it, so the handler is not
run; on each of the four guarded routes the answer is 403, the only operation
issued is the project query of the guard (no task query, no update, no save), and
the blueprints, the tasks and the bucket are as before. -/
theorem non_member_is_forbidden (m : Models) (w : World) (req : Request) (project : Project)
    (hp : Project.findById w req.blueprint.project = some project)
    (hm : truthy (m.getMemberType project req.me) = false) :
    (∀ next : Handler,
      requireProjectMembership m next w (Ctx.ofRequest req) =
        ⟨w.record (.projectFindById req.blueprint.project), .error ⟨403, "Forbidden"⟩⟩) ∧
    ∀ r : Route,
      (serve m r w req).status = 403 ∧
      (serve m r w req).result = .error ⟨403, "Forbidden"⟩ ∧
      (serve m r w req).world.log = w.log ++ [.projectFindById req.blueprint.project] ∧
      (serve m r w req).world.blueprints = w.blueprints ∧
      (serve m r w req).world.tasks = w.tasks ∧
      (serve m r w req).world.objects = w.objects := by
  have hguard : ∀ next : Handler,
      requireProjectMembership m next w (Ctx.ofRequest req) =
        ⟨w.record (.projectFindById req.blueprint.project), .error ⟨403, "Forbidden"⟩⟩ := by
    intro next
    simp [requireProjectMembership, Ctx.ofRequest, hp, hm]
  refine ⟨hguard, fun r => ?_⟩
  unfold serve
  rw [hguard]
  simp [Outcome.status, World.record]

/-- Witness of C3: the test "doesn't work if I am not a project member". -/
theorem non_member_is_forbidden_witness :
    (serve Fixtures.models .deleteById Fixtures.worldWithTask Fixtures.requestOfMarcel).status
      = 403 :=
  ((non_member_is_forbidden Fixtures.models Fixtures.worldWithTask Fixtures.requestOfMarcel
    Fixtures.eiffelTower (by decide) (by decide)).2 .deleteById).1

/-- C4: `GET /blueprints/id/:id/tasks` by a project member answers 200 with the
array of the exported forms of the tasks located on the blueprint, in the order
of the collection: a task is listed exactly when it is in the collection with a
location on this blueprint, as often as it is in the collection, and the array is
as long as the number of tasks located on the blueprint. -/
theorem tasks_listing_is_located_tasks (m : Models) (w : World) (req : Request)
    (project : Project)
    (hp : Project.findById w req.blueprint.project = some project)
    (hm : truthy (m.getMemberType project req.me) = true) :
    ∃ listed : List Task,
      (serve m .getTasks w req).status = 200 ∧
      (serve m .getTasks w req).body = some (.arr (listed.map m.exportTask)) ∧
      listed = w.tasks.filter (fun t =>
        decide (Option.map TaskLocation.blueprint t.locationOnBlueprint
          = some req.blueprint.id)) ∧
      (∀ t, t ∈ listed ↔ t ∈ w.tasks ∧
        Option.map TaskLocation.blueprint t.locationOnBlueprint = some req.blueprint.id) ∧
      (∀ t, Option.map TaskLocation.blueprint t.locationOnBlueprint = some req.blueprint.id →
        listed.count t = w.tasks.count t) ∧
      (∀ t, Option.map TaskLocation.blueprint t.locationOnBlueprint ≠ some req.blueprint.id →
        listed.count t = 0) ∧
      (listed.map m.exportTask).length = w.tasks.countP (fun t =>
        decide (Option.map TaskLocation.blueprint t.locationOnBlueprint
          = some req.blueprint.id)) := by
  have hpred : Task.locatedOn req.blueprint.id = (fun t =>
      decide (Option.map TaskLocation.blueprint t.locationOnBlueprint
        = some req.blueprint.id)) := by
    funext t
    unfold Task.locatedOn
    cases t.locationOnBlueprint
    · simp
    · simp only [Option.map_some', Option.some.injEq]
      rfl
  refine ⟨Task.find w req.blueprint.id, ?_, ?_, ?_, ?_, ?_, ?_, ?_⟩
  · rw [serve_of_member m _ w req project hp hm]
    simp [Route.handler, getBlueprintTasks, Outcome.status, Ctx.setBody]
  · rw [serve_of_member m _ w req project hp hm]
    simp [Route.handler, getBlueprintTasks, Outcome.body, Ctx.setBody, find_record,
      Ctx.ofRequest]
  · unfold Task.find
    rw [hpred]
  · intro t
    exact mem_find_iff w _ t
  · intro t ht
    unfold Task.find
    rw [List.count_filter]
    rw [hpred]
    simpa using ht
  · intro t ht
    rw [List.count_eq_zero]
    intro hmem
    exact ht ((mem_find_iff w _ t).1 hmem).2
  · unfold Task.find
    rw [List.length_map, hpred, List.countP_eq_length_filter]

/-- Witness of C4: of the two tasks in the database, the one located on the
blueprint is listed. -/
theorem tasks_listing_is_located_tasks_witness :
    ∃ listed : List Task,
      (serve Fixtures.models .getTasks Fixtures.worldWithTask (Fixtures.request [])).status
        = 200 ∧
      (serve Fixtures.models .getTasks Fixtures.worldWithTask (Fixtures.request [])).body
        = some (.arr (listed.map Fixtures.models.exportTask)) ∧
      listed = [Fixtures.task66] := by
  obtain ⟨listed, h1, h2, h3, _⟩ :=
    tasks_listing_is_located_tasks Fixtures.models Fixtures.worldWithTask (Fixtures.request [])
      Fixtures.eiffelTower (by decide) (by decide)
  exact ⟨listed, h1, h2, h3.trans (by decide)⟩

/-- The rules the update handler validates a body against. -/
theorem put_rules :
    mapValues [("name", JType.string)] (fun type => ({ type := type, optional := true } : Rule))
      = [("name", { type := .string, optional := true })] := rfl

/-- The update handler on a body that the validation accepts and that casts. -/
theorem putBlueprint_of_valid (w w1 : World) (ctx : Ctx)
    (hv : validate ctx.requestBody [("name", { type := .string, optional := true })]
      = .ok ctx.requestBody)
    (hu : Blueprint.update w ctx.blueprint ctx.requestBody = some w1) :
    putBlueprint w ctx = ⟨w1, .ok (ctx.setStatus 204)⟩ := by
  simp [putBlueprint, put_rules, hv, hu]

/-- The update handler on a body that the validation rejects. -/
theorem putBlueprint_of_invalid (w : World) (ctx : Ctx) (e : HttpError)
    (hv : validate ctx.requestBody [("name", { type := .string, optional := true })]
      = .error e) :
    putBlueprint w ctx = ⟨w, .error e⟩ := by
  simp [putBlueprint, put_rules, hv]

/-- C5: `PUT /blueprints/id/:id` by a project member with an empty body answers
204 without body and leaves every stored blueprint as it was; with a body that
holds only a string `name` it answers 204 without body and the stored blueprint
with the id of the request has that name and all its other fields as before,
while other blueprints, the tasks and the bucket are unchanged. -/
theorem put_changes_only_the_name (m : Models) (w : World) (req : Request) (project : Project)
    (hp : Project.findById w req.blueprint.project = some project)
    (hm : truthy (m.getMemberType project req.me) = true) :
    (req.body = [] →
      (serve m .putById w req).status = 204 ∧
      (serve m .putById w req).body = none ∧
      (serve m .putById w req).world.blueprints = w.blueprints ∧
      (serve m .putById w req).world.tasks = w.tasks ∧
      (serve m .putById w req).world.objects = w.objects) ∧
    (∀ name : String, req.body = [("name", .str name)] →
      (serve m .putById w req).status = 204 ∧
      (serve m .putById w req).body = none ∧
      (serve m .putById w req).world.blueprints =
        w.blueprints.map (fun s => if s.id = req.blueprint.id then { s with name := name } else s) ∧
      (serve m .putById w req).world.tasks = w.tasks ∧
      (serve m .putById w req).world.objects = w.objects) := by
  rw [serve_of_member m _ w req project hp hm]
  simp only [Route.handler]
  constructor
  · intro hbody
    have hv : validate (Ctx.ofRequest req).requestBody
        [("name", { type := .string, optional := true })] = .ok (Ctx.ofRequest req).requestBody := by
      simp [Ctx.ofRequest, hbody, validate]
    have hu : Blueprint.update (w.record (.projectFindById req.blueprint.project))
        (Ctx.ofRequest req).blueprint (Ctx.ofRequest req).requestBody
        = some ((w.record (.projectFindById req.blueprint.project)).record
            (.blueprintUpdate req.blueprint.id [])) := by
      simp [Ctx.ofRequest, hbody, Blueprint.update, Blueprint.applySet, World.record]
    rw [putBlueprint_of_valid _ _ _ hv hu]
    simp [Outcome.status, Outcome.body, Ctx.setStatus, Ctx.ofRequest, World.record]
  · intro name hbody
    have hv : validate (Ctx.ofRequest req).requestBody
        [("name", { type := .string, optional := true })] = .ok (Ctx.ofRequest req).requestBody := by
      simp [Ctx.ofRequest, hbody, validate, List.lookup, JVal.hasType]
    have hu : Blueprint.update (w.record (.projectFindById req.blueprint.project))
        (Ctx.ofRequest req).blueprint (Ctx.ofRequest req).requestBody
        = some (World.record
            { w.record (.projectFindById req.blueprint.project) with
              blueprints := w.blueprints.map
                (fun s => if s.id = req.blueprint.id then { s with name := name } else s) }
            (.blueprintUpdate req.blueprint.id [("name", .str name)])) := by
      simp [Ctx.ofRequest, hbody, Blueprint.update, Blueprint.applySet, Blueprint.setPath,
        World.record]
    rw [putBlueprint_of_valid _ _ _ hv hu]
    simp [Outcome.status, Outcome.body, Ctx.setStatus, Ctx.ofRequest, World.record]

/-- Witness of C5: the test "update / works", renaming the blueprint to rooster. -/
theorem put_changes_only_the_name_witness :
    (serve Fixtures.models .putById Fixtures.world
        (Fixtures.request [("name", .str "rooster")])).world.blueprints
      = [{ Fixtures.blueprintToDelete with name := "rooster" }] :=
  ((put_changes_only_the_name Fixtures.models Fixtures.world
      (Fixtures.request [("name", .str "rooster")]) Fixtures.eiffelTower
      (by decide) (by decide)).2 "rooster" rfl).2.2.1.trans rfl

/-- A body with a key that has no rule is rejected by the validation. -/
theorem validate_rejects_unknown_key (body : JObject) (rules : List (String × Rule))
    (key : String) (v : JVal) (hmem : (key, v) ∈ body) (hrule : rules.lookup key = none) :
    validate body rules = .error ⟨400, "Bad Request"⟩ := by
  have hall : body.all (fun kv =>
      match rules.lookup kv.1 with
      | some r => kv.2.hasType r.type
      | none => false) = false := by
    rw [List.all_eq_false]
    exact ⟨(key, v), hmem, by simp [hrule]⟩
  simp [validate, hall]

/-- C6: a `PUT /blueprints/id/:id` whose body has one of the keys `pages`,
`progress`, `keyPrefix` ends in an error for every actor, no update is issued and
every stored blueprint (so its pages, progress and keyPrefix) is as before; for a
project member the error is the rejection by the validation. -/
theorem put_rejects_conversion_fields (m : Models) (w : World) (req : Request)
    (key : String) (v : JVal)
    (hkey : key = "pages" ∨ key = "progress" ∨ key = "keyPrefix")
    (hmem : (key, v) ∈ req.body) :
    (∃ e, (serve m .putById w req).result = .error e) ∧
    (serve m .putById w req).world.blueprints = w.blueprints ∧
    (serve m .putById w req).world.log = w.log ++ [.projectFindById req.blueprint.project] ∧
    (∀ project, Project.findById w req.blueprint.project = some project →
      truthy (m.getMemberType project req.me) = true →
      (serve m .putById w req).result = .error ⟨400, "Bad Request"⟩) := by
  have hrule : List.lookup key [("name", ({ type := .string, optional := true } : Rule))]
      = none := by
    rcases hkey with h | h | h <;> subst h <;> decide
  have hput : ∀ w0 : World, putBlueprint w0 (Ctx.ofRequest req)
      = ⟨w0, .error ⟨400, "Bad Request"⟩⟩ := by
    intro w0
    exact putBlueprint_of_invalid w0 _ _
      (validate_rejects_unknown_key _ _ key v (by simpa [Ctx.ofRequest] using hmem) hrule)
  refine ⟨?_, ?_, ?_, ?_⟩
  · unfold serve requireProjectMembership
    cases Project.findById w (Ctx.ofRequest req).blueprint.project with
    | none => exact ⟨_, rfl⟩
    | some project =>
      by_cases hm : truthy (m.getMemberType project (Ctx.ofRequest req).me) = true
      · simp only [hm, Route.handler, hput]
        exact ⟨_, rfl⟩
      · simp only [Bool.not_eq_true] at hm
        simp only [hm]
        exact ⟨_, rfl⟩
  · unfold serve requireProjectMembership
    cases Project.findById w (Ctx.ofRequest req).blueprint.project with
    | none => rfl
    | some project =>
      by_cases hm : truthy (m.getMemberType project (Ctx.ofRequest req).me) = true
      · simp only [hm, Route.handler, hput]
        rfl
      · simp only [Bool.not_eq_true] at hm
        simp only [hm]
        rfl
  · unfold serve requireProjectMembership
    cases Project.findById w (Ctx.ofRequest req).blueprint.project with
    | none => rfl
    | some project =>
      by_cases hm : truthy (m.getMemberType project (Ctx.ofRequest req).me) = true
      · simp only [hm, Route.handler, hput]
        rfl
      · simp only [Bool.not_eq_true] at hm
        simp only [hm]
        rfl
  · intro project hp hm
    rw [serve_of_member m _ w req project hp hm]
    simp only [Route.handler, hput]

/-- Witness of C6: a body that tries to set `progress`. -/
theorem put_rejects_conversion_fields_witness :
    (serve Fixtures.models .putById Fixtures.world
        (Fixtures.request [("progress", .num 0)])).world.blueprints
      = Fixtures.world.blueprints :=
  (put_rejects_conversion_fields Fixtures.models Fixtures.world
    (Fixtures.request [("progress", .num 0)]) "progress" (.num 0)
    (Or.inr (Or.inl rfl)) (List.mem_singleton.2 rfl)).2.1

/-- C8, the code at the failing input: a member deletes the blueprint of the
tests, on which no task is located. The answer is 204, yet the objects under the
`keyPrefix` of the blueprint are all still in the bucket, the document is still
in the collection (with `deleted = true`), and the operations issued are the two
queries and a save: neither a removal of the document nor a deletion in the
bucket. Removing the document, as the `after` hook of the tests does, is what
clears the bucket. -/
theorem delete_leaves_bucket_untouched :
    (serve Fixtures.models .deleteById Fixtures.world (Fixtures.request [])).status = 204 ∧
    (serve Fixtures.models .deleteById Fixtures.world (Fixtures.request [])).world.objects
      = ["fixtures/plan-maison/source.pdf", "fixtures/plan-maison/0.png", "other/0.png"] ∧
    (serve Fixtures.models .deleteById Fixtures.world (Fixtures.request [])).world.blueprints
      = [{ Fixtures.blueprintToDelete with deleted := true }] ∧
    (serve Fixtures.models .deleteById Fixtures.world (Fixtures.request [])).world.log
      = [.projectFindById "eiffelTower", .taskFind "59c38b54b367bb351056e1a8",
          .blueprintSave "59c38b54b367bb351056e1a8"] ∧
    (Blueprint.remove Fixtures.world Fixtures.blueprintToDelete).objects = ["other/0.png"] ∧
    (Blueprint.remove Fixtures.world Fixtures.blueprintToDelete).blueprints = [] := by
  refine ⟨by decide, by decide, rfl, rfl, by decide, by decide⟩

/-! ## Properties of the conversion job -/

namespace Conversion

/-- Every transition keeps the pages of the record followed by the descriptors of
the pages still to render equal to the descriptors of the document, and a
complete job has progress 1 and nothing left to render. -/
theorem step_invariant (renders : Nat → Bool) (all : List Page) (j : Job)
    (hpages : j.record.pages ++ j.remaining.map SourcePage.descriptor = all)
    (hdone : j.phase = .complete → j.record.progress = 1 ∧ j.remaining = []) :
    (j.step renders).record.pages ++ (j.step renders).remaining.map SourcePage.descriptor = all ∧
    ((j.step renders).phase = .complete →
      (j.step renders).record.progress = 1 ∧ (j.step renders).remaining = []) := by
  unfold Job.step
  cases hphase : j.phase with
  | pending => simp [hpages]
  | rendering =>
    cases hrem : j.remaining with
    | nil =>
      rw [hrem] at hpages
      simpa using hpages
    | cons p rest =>
      simp only
      rw [hrem] at hpages
      by_cases hr : renders j.record.pages.length = true
      · simp only [hr, if_true]
        refine ⟨?_, ?_⟩
        · simpa using hpages
        · intro hc
          exact absurd hc (by decide)
      · simp only [hr]
        refine ⟨?_, ?_⟩
        · simpa [hrem] using hpages
        · intro hc
          exact absurd hc (by simp)
  | complete =>
    simp only
    exact ⟨hpages, hdone⟩
  | failed =>
    simp only
    exact ⟨hpages, hdone⟩

/-- The invariant of a transition holds after any number of transitions. -/
theorem run_invariant (renders : Nat → Bool) (all : List Page) (k : Nat) (j : Job)
    (hpages : j.record.pages ++ j.remaining.map SourcePage.descriptor = all)
    (hdone : j.phase = .complete → j.record.progress = 1 ∧ j.remaining = []) :
    (Job.run renders k j).record.pages
        ++ (Job.run renders k j).remaining.map SourcePage.descriptor = all ∧
    ((Job.run renders k j).phase = .complete →
      (Job.run renders k j).record.progress = 1 ∧ (Job.run renders k j).remaining = []) := by
  induction k generalizing j with
  | zero => exact ⟨hpages, hdone⟩
  | succ n ih =>
    have hstep := step_invariant renders all j hpages hdone
    exact ih (j.step renders) hstep.1 hstep.2

/-- A rendering job whose pages all render is complete after one transition per
page that is left and one more. -/
theorem run_rendering_completes (renders : Nat → Bool) (hr : ∀ i, renders i = true)
    (rest : List SourcePage) (j : Job) (hphase : j.phase = .rendering)
    (hrem : j.remaining = rest) :
    (Job.run renders (rest.length + 1) j).phase = .complete := by
  induction rest generalizing j with
  | nil =>
    simp [Job.run, Job.step, hphase, hrem]
  | cons p rest ih =>
    have hrun : Job.run renders ((p :: rest).length + 1) j
        = Job.run renders (rest.length + 1) (j.step renders) := rfl
    rw [hrun]
    apply ih
    · simp [Job.step, hphase, hrem, hr]
    · simp [Job.step, hphase, hrem, hr]

/-- The record of a complete job: for the record created for a document and any
number of transitions, a job in `Complete` has `progress` equal to 1 and its
pages are the descriptors of the pages of the document in order, as many as the
document has; and when every page renders the job is in `Complete` after one
transition per page and two more. -/
theorem complete_job_record (id : Id) (name : String) (project : Id)
    (keyPrefix : String) (creator : Id) (doc : List SourcePage) (renders : Nat → Bool) :
    (∀ k : Nat,
      (Job.run renders k
        (Job.enqueue (createRecord id name project keyPrefix) creator doc)).phase = .complete →
      (Job.run renders k
        (Job.enqueue (createRecord id name project keyPrefix) creator doc)).record.progress = 1 ∧
      (Job.run renders k
        (Job.enqueue (createRecord id name project keyPrefix) creator doc)).record.pages
          = doc.map SourcePage.descriptor ∧
      (Job.run renders k
        (Job.enqueue (createRecord id name project keyPrefix) creator doc)).record.pages.length
          = doc.length) ∧
    ((∀ i, renders i = true) →
      (Job.run renders (doc.length + 2)
        (Job.enqueue (createRecord id name project keyPrefix) creator doc)).phase = .complete) := by
  constructor
  · intro k hk
    have hinv := run_invariant renders (doc.map SourcePage.descriptor) k
      (Job.enqueue (createRecord id name project keyPrefix) creator doc)
      (by simp [Job.enqueue, createRecord]) (by simp [Job.enqueue])
    have hdone := hinv.2 hk
    have hpages : (Job.run renders k
        (Job.enqueue (createRecord id name project keyPrefix) creator doc)).record.pages
          = doc.map SourcePage.descriptor := by
      have h := hinv.1
      rw [hdone.2] at h
      simpa using h
    refine ⟨hdone.1, hpages, ?_⟩
    rw [hpages, List.length_map]
  · intro hr
    have hrun : Job.run renders (doc.length + 2)
        (Job.enqueue (createRecord id name project keyPrefix) creator doc)
        = Job.run renders (doc.length + 1)
            ((Job.enqueue (createRecord id name project keyPrefix) creator doc).step renders) :=
      rfl
    rw [hrun]
    exact run_rendering_completes renders hr doc _ (by simp [Job.step, Job.enqueue])
      (by simp [Job.step, Job.enqueue])

/-- The three-page document of the creation test: after five transitions the
job is complete, and then the record has progress 1 and three pages. -/
theorem chicken_job_completes :
    (Job.run (fun _ => true) 5
      (Job.enqueue Fixtures.chickenRecord "fabien" Fixtures.chicken)).phase = .complete ∧
    (Job.run (fun _ => true) 5
      (Job.enqueue Fixtures.chickenRecord "fabien" Fixtures.chicken)).record.progress = 1 ∧
    (Job.run (fun _ => true) 5
      (Job.enqueue Fixtures.chickenRecord "fabien" Fixtures.chicken)).record.pages.length = 3 := by
  have h := (complete_job_record "chickenId" "chicken" "eiffelTower" "uploads/chicken"
    "fabien" Fixtures.chicken (fun _ => true)).1 5 rfl
  exact ⟨rfl, h.1, h.2.2⟩

end Conversion

/-! ## Properties of the TextInput component -/

namespace TextInput

/-- An event leaves the props as they are and keeps a mounted element mounted;
the component has been edited after it when it had been before or the event is a
change, and the focus follows the `focus` and `blur` events. -/
theorem dispatch_state (c : Component) (e : Event) :
    (c.dispatch e).props = c.props ∧
    (c.dispatch e).state.input.isSome = c.state.input.isSome ∧
    (c.dispatch e).state.hasBeenEdited = (c.state.hasBeenEdited || e.isChange) ∧
    (c.dispatch e).state.focused =
      (match e with
        | .focus => true
        | .blur => false
        | .change _ => c.state.focused) := by
  cases e with
  | focus => simp [Component.dispatch, Component.onFocus, Event.isChange]
  | blur => simp [Component.dispatch, Component.onBlur, Event.isChange]
  | change value =>
    unfold Component.dispatch Component.onChange
    by_cases hc : c.props.value.isSome = true
    · simp [Component.controlled, hc, Event.isChange]
    · simp [Component.controlled, hc, Event.isChange]

/-- The state after a sequence of events, from the state before it. -/
theorem run_state (events : List Event) (c : Component) :
    (c.run events).props = c.props ∧
    (c.run events).state.input.isSome = c.state.input.isSome ∧
    (c.run events).state.hasBeenEdited = (c.state.hasBeenEdited || events.any Event.isChange) ∧
    (c.run events).state.focused =
      events.foldl
        (fun focused e =>
          match e with
          | .focus => true
          | .blur => false
          | .change _ => focused)
        c.state.focused := by
  induction events generalizing c with
  | nil => simp [Component.run]
  | cons e rest ih =>
    have hd := dispatch_state c e
    have hr := ih (c.dispatch e)
    have hrun : c.run (e :: rest) = (c.dispatch e).run rest := rfl
    rw [hrun]
    refine ⟨hr.1.trans hd.1, hr.2.1.trans hd.2.1, ?_, ?_⟩
    · rw [hr.2.2.1, hd.2.2.1, List.any_cons, Bool.or_assoc]
    · rw [hr.2.2.2, hd.2.2.2]
      rfl

/-- What the getters give on a mounted component without `validationResult` prop
whose validator answers every value with an error result of non-empty message. -/
theorem tooltip_of_error_validator (c : Component) (validator : String → Option ValidationResult)
    (hresult : c.props.validationResult = none)
    (hvalidator : c.props.validator = some validator)
    (herror : ∀ v, ∃ r, validator v = some r ∧ r.message ≠ "")
    (hinput : c.state.input.isSome = true) :
    c.tooltipVisible = .ok (c.state.hasBeenEdited && !c.state.focused) ∧
    c.tooltipShown = (c.state.hasBeenEdited && !c.state.focused) := by
  obtain ⟨input, hin⟩ := Option.isSome_iff_exists.1 hinput
  obtain ⟨r, hr, hmsg⟩ := herror input.value
  cases hf : c.state.focused <;> cases he : c.state.hasBeenEdited <;>
    simp [Component.tooltipShown, Component.renderedTooltip, Component.tooltipVisible,
      Component.validationTooltip, Component.validationMessage, Component.validate,
      Component.value, hresult, hvalidator, hin, hr, hmsg, hf, he]

/-- C10: on a freshly mounted TextInput without `validationResult` prop whose
validator answers every value with an error result of non-empty message, after
every sequence of focus, blur and change events the validation tooltip is shown
exactly when a change event has occurred and the element is not focused; so it is
not shown when no change has occurred, it is hidden after a focus, after a blur
it is shown exactly when a change has occurred, and a change leaves it hidden
while the element is focused. -/
theorem tooltip_shown_iff_edited_and_blurred (props : Props)
    (validator : String → Option ValidationResult)
    (hresult : props.validationResult = none)
    (hvalidator : props.validator = some validator)
    (herror : ∀ v, ∃ r, validator v = some r ∧ r.message ≠ "")
    (events : List Event) :
    ((mount props).run events).state.hasBeenEdited = events.any Event.isChange ∧
    ((mount props).run events).state.focused = focusedAfter events ∧
    ((mount props).run events).tooltipVisible
      = .ok (events.any Event.isChange && !focusedAfter events) ∧
    ((mount props).run events).tooltipShown
      = (events.any Event.isChange && !focusedAfter events) ∧
    (events.any Event.isChange = false → ((mount props).run events).tooltipShown = false) ∧
    ((mount props).run (events ++ [.focus])).tooltipShown = false ∧
    ((mount props).run (events ++ [.blur])).tooltipShown = events.any Event.isChange ∧
    (∀ value, ((mount props).run (events ++ [.change value])).tooltipShown
      = !focusedAfter events) := by
  have key : ∀ es : List Event,
      ((mount props).run es).state.hasBeenEdited = es.any Event.isChange ∧
      ((mount props).run es).state.focused = focusedAfter es ∧
      ((mount props).run es).tooltipVisible
        = .ok (es.any Event.isChange && !focusedAfter es) ∧
      ((mount props).run es).tooltipShown = (es.any Event.isChange && !focusedAfter es) := by
    intro es
    have hs := run_state es (mount props)
    have hedited : ((mount props).run es).state.hasBeenEdited = es.any Event.isChange := by
      rw [hs.2.2.1]
      simp [mount, Component.onInputMount, initialState]
    have hfocused : ((mount props).run es).state.focused = focusedAfter es := by
      rw [hs.2.2.2]
      rfl
    have ht := tooltip_of_error_validator ((mount props).run es) validator
      (by rw [hs.1]; exact hresult) (by rw [hs.1]; exact hvalidator) herror
      (by rw [hs.2.1]; rfl)
    rw [hedited, hfocused] at ht
    exact ⟨hedited, hfocused, ht.1, ht.2⟩
  have hfocus : ∀ (es : List Event) (e : Event), focusedAfter (es ++ [e]) =
      (match e with
        | .focus => true
        | .blur => false
        | .change _ => focusedAfter es) := by
    intro es e
    unfold focusedAfter
    rw [List.foldl_append]
    cases e <;> rfl
  refine ⟨(key events).1, (key events).2.1, (key events).2.2.1, (key events).2.2.2, ?_, ?_, ?_, ?_⟩
  · intro hnone
    rw [(key events).2.2.2, hnone]
    rfl
  · rw [(key _).2.2.2, hfocus]
    simp
  · rw [(key _).2.2.2, hfocus]
    simp [Event.isChange]
  · intro value
    rw [(key _).2.2.2, hfocus]
    simp [Event.isChange]

/-- Witness of C10: the sequence of the component's test, blur, focus, blur,
change, blur: the tooltip is shown at the end. -/
theorem tooltip_shown_iff_edited_and_blurred_witness :
    ((mount Fixtures.errorProps).run
      [.blur, .focus, .blur, .change "", .blur]).tooltipShown = true :=
  (tooltip_shown_iff_edited_and_blurred Fixtures.errorProps Fixtures.alwaysError rfl rfl
    (fun _ => ⟨_, rfl, by decide⟩) [.blur, .focus, .blur, .change "", .blur]).2.2.2.1.trans
    (by decide)

/-- The calls `componentWillReceiveProps` makes, by the condition of its `if`. -/
theorem componentWillReceiveProps_eq (c : Component) (nextProps : PropsObject) :
    c.componentWillReceiveProps nextProps =
      if (nextProps.get "autoFocus").truthy = true ∧ c.state.input.isSome = true ∧
          (nextProps.get "disabled").truthy = false ∧ (nextProps.get "readOnly").truthy = false
      then [.focus] else [] := by
  unfold Component.componentWillReceiveProps
  cases (nextProps.get "autoFocus").truthy <;> cases c.state.input.isSome <;>
    cases (nextProps.get "disabled").truthy <;> cases (nextProps.get "readOnly").truthy <;> rfl

/-- C11: when a TextInput receives new props, `focus()` is called on the element
exactly once if `nextProps.autoFocus` is truthy, an element is mounted and
`nextProps.disabled` and `nextProps.readOnly` are both falsy, and it is not
called at all otherwise; a component that was mounted, whatever events it has
handled since, still has its element, so for it the props alone decide. -/
theorem focus_called_once_iff_autoFocus (c : Component) (nextProps : PropsObject) :
    ((c.componentWillReceiveProps nextProps).count .focus = 1 ↔
      ((nextProps.get "autoFocus").truthy = true ∧ c.state.input.isSome = true ∧
        (nextProps.get "disabled").truthy = false ∧ (nextProps.get "readOnly").truthy = false)) ∧
    ((c.componentWillReceiveProps nextProps).count .focus = 0 ↔
      ((nextProps.get "autoFocus").truthy = false ∨ c.state.input = none ∨
        (nextProps.get "disabled").truthy = true ∨ (nextProps.get "readOnly").truthy = true)) ∧
    (c.componentWillReceiveProps nextProps = [.focus] ∨
      c.componentWillReceiveProps nextProps = []) ∧
    (∀ (props : Props) (events : List Event),
      (((mount props).run events).componentWillReceiveProps nextProps).count .focus =
        if (nextProps.get "autoFocus").truthy = true ∧
            (nextProps.get "disabled").truthy = false ∧ (nextProps.get "readOnly").truthy = false
        then 1 else 0) := by
  refine ⟨?_, ?_, ?_, ?_⟩
  · rw [componentWillReceiveProps_eq]
    by_cases h : (nextProps.get "autoFocus").truthy = true ∧ c.state.input.isSome = true ∧
        (nextProps.get "disabled").truthy = false ∧ (nextProps.get "readOnly").truthy = false
    · simp [h]
    · simp [h]
  · rw [componentWillReceiveProps_eq]
    cases (nextProps.get "autoFocus").truthy <;> cases hin : c.state.input <;>
      cases (nextProps.get "disabled").truthy <;> cases (nextProps.get "readOnly").truthy <;>
      simp
  · rw [componentWillReceiveProps_eq]
    by_cases h : (nextProps.get "autoFocus").truthy = true ∧ c.state.input.isSome = true ∧
        (nextProps.get "disabled").truthy = false ∧ (nextProps.get "readOnly").truthy = false
    · exact Or.inl (if_pos h)
    · exact Or.inr (if_neg h)
  · intro props events
    have hin : ((mount props).run events).state.input.isSome = true := by
      rw [(run_state events (mount props)).2.1]
      rfl
    rw [componentWillReceiveProps_eq, hin]
    cases (nextProps.get "autoFocus").truthy <;>
      cases (nextProps.get "disabled").truthy <;> cases (nextProps.get "readOnly").truthy <;>
      simp

/-- Witness of C11: the test "get focused when the autoFocus prop change". -/
theorem focus_called_once_iff_autoFocus_witness :
    ((mount defaultProps).componentWillReceiveProps Fixtures.autoFocusProps).count .focus = 1 :=
  (focus_called_once_iff_autoFocus (mount defaultProps) Fixtures.autoFocusProps).1.2
    (by decide)

/-- The keys `inputProps` omits: the five props of the component, and
`autoFocus` when `readOnly` is truthy. -/
theorem inputProps_eq_filter (props : PropsObject) :
    inputProps props = props.filter (fun kv =>
      !(["popperOptions", "validator", "rightLabel", "textarea", "validationResult"]
        ++ (if (props.get "readOnly").truthy then ["autoFocus"] else [])).contains kv.1) := by
  have hpaths : ∀ last : PropValue,
      ([ PropValue.string "popperOptions", PropValue.string "validator",
         PropValue.string "rightLabel", PropValue.string "textarea",
         PropValue.string "validationResult", last ].filter PropValue.truthy).filterMap
          PropValue.toKey
        = ["popperOptions", "validator", "rightLabel", "textarea", "validationResult"]
          ++ (if last.truthy then last.toKey.toList else []) := by
    intro last
    have h1 : PropValue.truthy (.string "popperOptions") = true := rfl
    have h2 : PropValue.truthy (.string "validator") = true := rfl
    have h3 : PropValue.truthy (.string "rightLabel") = true := rfl
    have h4 : PropValue.truthy (.string "textarea") = true := rfl
    have h5 : PropValue.truthy (.string "validationResult") = true := rfl
    cases hl : last.truthy
    · simp [List.filter, h1, h2, h3, h4, h5, hl, PropValue.toKey]
    · cases last <;> simp [List.filter, h1, h2, h3, h4, h5, hl, PropValue.toKey]
  unfold inputProps omitKeys
  rw [hpaths]
  cases h : (props.get "readOnly").truthy
  · simp [PropValue.and, h]
  · have h6 : PropValue.truthy (.string "autoFocus") = true := rfl
    simp [PropValue.and, h, h6, PropValue.toKey]

/-- Looking a key up after filtering the entries by their key. -/
theorem lookup_filter_key (p : String → Bool) (l : PropsObject) (key : String) :
    (l.filter (fun kv => p kv.1)).lookup key = if p key = true then l.lookup key else none := by
  induction l with
  | nil => simp
  | cons kv rest ih =>
    obtain ⟨k, v⟩ := kv
    by_cases hk : key = k
    · subst hk
      by_cases hp : p key = true
      · simp [List.filter_cons, hp]
      · simp only [Bool.not_eq_true] at hp
        simp [List.filter_cons, hp, ih]
    · have hne : (key == k) = false := by simpa using hk
      by_cases hp : p k = true
      · simp [List.filter_cons, hp, List.lookup_cons, hne, ih]
      · simp only [Bool.not_eq_true] at hp
        simp [List.filter_cons, hp, List.lookup_cons, hne, ih]

/-- Replacing the value of the entries of one key leaves the other keys as they
are. -/
theorem lookup_map_replace_of_ne (props : PropsObject) (key other : String) (v : PropValue)
    (hne : other ≠ key) :
    (props.map (fun kv => if kv.1 == key then (key, v) else kv)).lookup other
      = props.lookup other := by
  have h1 : (other == key) = false := by simpa using hne
  induction props with
  | nil => rfl
  | cons kv rest ih =>
    obtain ⟨k, w⟩ := kv
    rw [List.map_cons]
    cases hk : k == key
    · simp only [Bool.false_eq_true, if_false, List.lookup_cons]
      rw [ih]
    · simp only [if_true, List.lookup_cons, h1]
      have hkk : k = key := by simpa using hk
      subst hkk
      rw [ih, h1]

/-- Giving a prop to an element leaves the other keys as they are. -/
theorem lookup_setProp_of_ne (props : PropsObject) (key other : String) (v : PropValue)
    (hne : other ≠ key) :
    (setProp props key v).lookup other = props.lookup other := by
  unfold setProp
  split
  · exact lookup_map_replace_of_ne props key other v hne
  · have h1 : (other == key) = false := by simpa using hne
    rw [List.lookup_append]
    simp [List.lookup_cons, h1]

/-- Looking a key up in `inputProps`: nothing for an omitted key, the value of
the prop for any other key. -/
theorem lookup_inputProps (props : PropsObject) (key : String) :
    (inputProps props).lookup key =
      if key ∈ ["popperOptions", "validator", "rightLabel", "textarea", "validationResult"]
          ∨ (key = "autoFocus" ∧ (props.get "readOnly").truthy = true)
      then none else props.lookup key := by
  have hl := lookup_filter_key
    (fun k => !(["popperOptions", "validator", "rightLabel", "textarea", "validationResult"]
        ++ (if (props.get "readOnly").truthy then ["autoFocus"] else [])).contains k) props key
  beta_reduce at hl
  rw [← inputProps_eq_filter] at hl
  rw [hl]
  have hcond :
      (!(["popperOptions", "validator", "rightLabel", "textarea", "validationResult"]
        ++ (if (props.get "readOnly").truthy then ["autoFocus"] else [])).contains key) = true ↔
      ¬(key ∈ ["popperOptions", "validator", "rightLabel", "textarea", "validationResult"]
          ∨ (key = "autoFocus" ∧ (props.get "readOnly").truthy = true)) := by
    cases (props.get "readOnly").truthy
    · simp
    · simp
      constructor
      · rintro ⟨h1, h2, h3, h4, h5, h6⟩
        exact ⟨⟨h1, h2, h3, h4, h5⟩, h6⟩
      · rintro ⟨⟨h1, h2, h3, h4, h5⟩, h6⟩
        exact ⟨h1, h2, h3, h4, h5, h6⟩
  by_cases hc : key ∈ ["popperOptions", "validator", "rightLabel", "textarea", "validationResult"]
      ∨ (key = "autoFocus" ∧ (props.get "readOnly").truthy = true)
  · rw [if_pos hc, if_neg (fun hn => hcond.1 hn hc)]
  · rw [if_neg hc, if_pos (hcond.2 hc)]

/-- C12: `inputProps` holds exactly the entries of the props whose key is none of
`popperOptions`, `validator`, `rightLabel`, `textarea`, `validationResult`, nor
`autoFocus` when `readOnly` is truthy, each with its value; so none of the five
keys is in it, every other prop than `autoFocus` is, and `autoFocus` is left out
exactly when `readOnly` is truthy. The element `renderInput` renders is a
`<textarea>` when the `textarea` prop is truthy (so when it is `true`) and an
`<input>` otherwise, and it is given the props of `inputProps`, but for
`onChange`, `onFocus` and `onBlur`, which are the handlers of the component. -/
theorem inputProps_transfers_props (props : PropsObject) :
    (∀ key value, (key, value) ∈ inputProps props ↔
      ((key, value) ∈ props ∧
        key ∉ ["popperOptions", "validator", "rightLabel", "textarea", "validationResult"] ∧
        ¬(key = "autoFocus" ∧ (props.get "readOnly").truthy = true))) ∧
    (∀ key, key ∈ ["popperOptions", "validator", "rightLabel", "textarea", "validationResult"] →
      (inputProps props).lookup key = none) ∧
    (∀ key, key ∉ ["popperOptions", "validator", "rightLabel", "textarea", "validationResult"] →
      key ≠ "autoFocus" → (inputProps props).lookup key = props.lookup key) ∧
    ((inputProps props).lookup "autoFocus" =
      if (props.get "readOnly").truthy = true then none else props.lookup "autoFocus") ∧
    ((renderInput props).tag =
      if (props.get "textarea").truthy = true then Tag.textarea else Tag.input) ∧
    (props.get "textarea" = .bool true → (renderInput props).tag = .textarea) ∧
    (props.get "textarea" = .bool false ∨ props.get "textarea" = .undefined ∨
        props.get "textarea" = .null → (renderInput props).tag = .input) ∧
    (∀ key, key ∉ ["popperOptions", "validator", "rightLabel", "textarea", "validationResult"] →
      key ∉ ["onChange", "onFocus", "onBlur"] →
      ¬(key = "autoFocus" ∧ (props.get "readOnly").truthy = true) →
      (renderInput props).props.lookup key = props.lookup key) := by
  have htag : (renderInput props).tag =
      if (props.get "textarea").truthy = true then Tag.textarea else Tag.input := by
    unfold renderInput
    cases (props.get "textarea").truthy <;> rfl
  refine ⟨?_, ?_, ?_, ?_, htag, ?_, ?_, ?_⟩
  · intro key value
    rw [inputProps_eq_filter, List.mem_filter]
    cases h : (props.get "readOnly").truthy
    · simp
    · simp
      intro _
      constructor
      · rintro ⟨h1, h2, h3, h4, h5, h6⟩
        exact ⟨⟨h1, h2, h3, h4, h5⟩, h6⟩
      · rintro ⟨⟨h1, h2, h3, h4, h5⟩, h6⟩
        exact ⟨h1, h2, h3, h4, h5, h6⟩
  · intro key hkey
    rw [lookup_inputProps, if_pos (Or.inl hkey)]
  · intro key hkey hauto
    rw [lookup_inputProps, if_neg]
    rintro (h | ⟨h, _⟩)
    · exact hkey h
    · exact hauto h
  · rw [lookup_inputProps]
    cases h : (props.get "readOnly").truthy <;> simp
  · intro h
    rw [htag, h]
    rfl
  · intro h
    rw [htag]
    rcases h with h | h | h <;> rw [h] <;> rfl
  · intro key hkey hhandler hauto
    have hc : key ≠ "onChange" := fun h => hhandler (by simp [h])
    have hf : key ≠ "onFocus" := fun h => hhandler (by simp [h])
    have hb : key ≠ "onBlur" := fun h => hhandler (by simp [h])
    have hprops : (renderInput props).props =
        setProp
          (setProp (setProp (inputProps props) "onChange" (.object "this.onChange"))
            "onFocus" (.object "this.onFocus"))
          "onBlur" (.object "this.onBlur") := by
      unfold renderInput
      cases (props.get "textarea").truthy <;> rfl
    rw [hprops, lookup_setProp_of_ne _ _ _ _ hb, lookup_setProp_of_ne _ _ _ _ hf,
      lookup_setProp_of_ne _ _ _ _ hc, lookup_inputProps, if_neg]
    rintro (h | h)
    · exact hkey h
    · exact hauto h

/-- Witness of C12: the test "transfer props to the underlying input", with
`autoFocus` next to `readOnly`: the element is an `<input>` that is given
`readOnly = true` and no `autoFocus`. -/
theorem inputProps_transfers_props_witness :
    (renderInput Fixtures.readOnlyProps).tag = .input ∧
    (renderInput Fixtures.readOnlyProps).props.lookup "readOnly" = some (.bool true) ∧
    (inputProps Fixtures.readOnlyProps).lookup "autoFocus" = none := by
  have h := inputProps_transfers_props Fixtures.readOnlyProps
  exact ⟨h.2.2.2.2.2.2.1 (Or.inl (by decide)),
    (h.2.2.2.2.2.2.2 "readOnly" (by decide) (by decide) (by decide)).trans (by decide),
    h.2.2.2.1.trans (by decide)⟩

/-- The handler `onChange` followed in time ends in the component that the
handler `onChange` gives. -/
theorem onChangeRun_after (c : Component) (value : String) :
    (c.onChangeRun value).after = c.onChange value := by
  unfold Component.onChangeRun Component.onChange
  cases c.controlled <;> rfl

/-- What every change event does, on a component with its element mounted: the
`onChange` prop is called once more, with the value of the event and the result
of the validator for it (`null` without validator). When the component is not
controlled, or has been edited before, `validate()` at the moment of the call
returns the same result; on the first change of a controlled component it
returns `null`. -/
theorem changeRun_call (c : Component) (value : String)
    (hinput : c.state.input.isSome = true) :
    (c.changeRun value).after = c.dispatch (.change value) ∧
    (c.changeRun value).after.calls =
      c.calls ++ [.onChange value
        (match c.props.validator with
          | some validator => validator value
          | none => none)] ∧
    (c.controlled = false ∨ c.state.hasBeenEdited = true →
      (c.changeRun value).atCall.validate =
        .ok (match c.props.validator with
          | some validator => validator value
          | none => none)) ∧
    (c.controlled = true → c.state.hasBeenEdited = false →
      (c.changeRun value).atCall.validate = .ok none) := by
  obtain ⟨input, hin⟩ := Option.isSome_iff_exists.1 hinput
  refine ⟨?_, ?_, ?_, ?_⟩
  · unfold Component.changeRun Component.dispatch
    exact onChangeRun_after _ _
  · unfold Component.changeRun Component.onChangeRun
    cases hc : c.props.value <;> simp [Component.controlled, hc]
  · intro h
    unfold Component.changeRun Component.onChangeRun
    cases hc : c.props.value with
    | none =>
      cases hv : c.props.validator <;>
        simp [Component.controlled, hc, hv, Component.validate, Component.value, hin]
    | some v =>
      have he : c.state.hasBeenEdited = true := by
        rcases h with h | h
        · simp [Component.controlled, hc] at h
        · exact h
      cases hv : c.props.validator <;>
        simp [Component.controlled, hc, hv, Component.validate, Component.value, hin, he]
  · intro hcontrolled hedited
    unfold Component.changeRun Component.onChangeRun
    have hv : c.props.value.isSome = true := hcontrolled
    simp [Component.controlled, hv, Component.validate, hedited]

/-- C13, the code at the failing input: the first change event, to the value
"ab", on a freshly mounted controlled TextInput whose validator answers every
value with an error result. The `onChange` prop is called once, with "ab" and
the error result, while `validate()` at the moment of the call returns `null`:
the state still has `hasBeenEdited = false`. On the same input without `value`
prop, where the call waits for the state, `validate()` returns the error result
that is passed. -/
theorem onChange_result_differs_from_validate :
    ((mount Fixtures.controlledProps).changeRun "ab").after.calls
      = [.onChange "ab" (some { level := "error", message := "Error message" })] ∧
    ((mount Fixtures.controlledProps).changeRun "ab").atCall.state.hasBeenEdited = false ∧
    ((mount Fixtures.controlledProps).changeRun "ab").atCall.validate = .ok none ∧
    ((mount Fixtures.errorProps).changeRun "ab").after.calls
      = [.onChange "ab" (some { level := "error", message := "Error message" })] ∧
    ((mount Fixtures.errorProps).changeRun "ab").atCall.validate
      = .ok (some { level := "error", message := "Error message" }) := by
  refine ⟨by decide, by decide, rfl, by decide, rfl⟩

end TextInput

end Clovis
